import Mathlib

/-!
Shallow embedding of the core of the go-render package: the error taxonomy
(render.go), the Handler capability model (handler interfaces), the Text
coercion handler (text.go), the Multi fallback composer (multi.go, Handler
variant), and the Renderer registry (renderer.go).

Go errors built with fmt.Errorf and %w verbs form wrapping chains; errors.Is
walks the chain. io.Writer is modelled as a buffer that either accepts writes
or always fails with a fixed error. Go maps keyed by strings are modelled as
association lists with replace-on-duplicate insertion; where Go map iteration
order is unspecified (Multi.Formats), the model takes an explicit iteration
order function constrained to produce a permutation of the keys.
-/

/-- Model of a Go error value. `leaf` is an error created without wrapping
(identified by its message), `wrap` is fmt.Errorf with a single %w verb plus
trailing text, and `wrap2` is fmt.Errorf("%w: %w", e1, e2). -/
inductive GoErr where
  | leaf (msg : String) : GoErr
  | wrap (inner : GoErr) (msg : String) : GoErr
  | wrap2 (first second : GoErr) : GoErr
deriving DecidableEq, Repr

/-- errors.Is: the target is found at the head or along the unwrap chain
(both branches of a two-%w wrap are searched). -/
def GoErr.is (e target : GoErr) : Bool :=
  decide (e = target) ||
    match e with
    | .leaf _ => false
    | .wrap inner _ => inner.is target
    | .wrap2 a b => a.is target || b.is target

/-- Err is the base error for the package (render.go). -/
def Err : GoErr := .leaf "render"

/-- ErrFailed = fmt.Errorf("%w: failed", Err). -/
def ErrFailed : GoErr := .wrap Err "failed"

/-- ErrCannotRender = fmt.Errorf("%w: cannot render", Err). -/
def ErrCannotRender : GoErr := .wrap Err "cannot render"

/-- ErrUnsupportedFormat = fmt.Errorf("%w: unsupported format", Err)
(renderer.go). -/
def ErrUnsupportedFormat : GoErr := .wrap Err "unsupported format"

/-- Model of an io.Writer: a byte buffer, plus an optional error the writer
returns on every write attempt (a healthy writer has `failWith? = none`). -/
structure GoWriter where
  buf : String
  failWith? : Option GoErr
deriving DecidableEq, Repr

/-- One write call on the writer: appends on success, otherwise reports the
writer's error with nothing appended. -/
def GoWriter.write (w : GoWriter) (s : String) : GoWriter × Option GoErr :=
  match w.failWith? with
  | some e => (w, some e)
  | none => ({ w with buf := w.buf ++ s }, none)

/-- Model of a Go `any` value as seen by the Text handler's type switch
(text.go). Concrete types carried with the data the switch extracts; floats
carry their default `%v` formatting, since float arithmetic is never
performed. `iface` is any other concrete type, with its optional
implementations of io.Reader (content it would stream), io.WriterTo (content
it writes), fmt.Stringer (its String()), and error (its Error()), plus its
`%T` type name. -/
inductive GoValue where
  | goBytes (s : String) : GoValue
  | goRunes (s : String) : GoValue
  | goString (s : String) : GoValue
  | goInt (n : Int) : GoValue
  | goUint (n : Nat) : GoValue
  | goFloat (fmtV : String) : GoValue
  | goBool (b : Bool) : GoValue
  | iface (reader? writerTo? stringer? errMsg? : Option String)
      (tyName : String) : GoValue
deriving DecidableEq, Repr

/-- The `%T` formatting of a value (its Go concrete type name). -/
def GoValue.typeName : GoValue → String
  | .goBytes _ => "[]uint8"
  | .goRunes _ => "[]int32"
  | .goString _ => "string"
  | .goInt _ => "int"
  | .goUint _ => "uint"
  | .goFloat _ => "float64"
  | .goBool _ => "bool"
  | .iface _ _ _ _ ty => ty

/-- A rendering function: takes the writer and the value, returns the writer
after any partial output together with Go's returned error. -/
abbrev RenderFn : Type := GoWriter → GoValue → GoWriter × Option GoErr

/-- The Handler capability model (handler interfaces): every Handler has
Render; a Handler implements PrettyHandler iff `renderPretty?` is `some`,
and FormatsHandler iff `formats?` is `some`. -/
structure Handler where
  render : RenderFn
  renderPretty? : Option RenderFn
  formats? : Option (List String)

/-- The pretty-or-plain dispatch done by Renderer.Render (renderer.go):
`if pretty && ok { prettyHandler.RenderPretty } else { handler.Render }`. -/
def Handler.invoke (h : Handler) (pretty : Bool) (w : GoWriter) (v : GoValue) :
    GoWriter × Option GoErr :=
  match pretty, h.renderPretty? with
  | true, some rp => rp w v
  | true, none => h.render w v
  | false, _ => h.render w v

/-- ASCII lower-casing of one character, as strings.ToLower acts on the
ASCII format names used by the package. -/
def goCharToLower (c : Char) : Char :=
  if h : 65 ≤ c.toNat ∧ c.toNat ≤ 90 then
    Char.ofNatAux (c.toNat + 32)
      (Or.inl (Nat.lt_of_le_of_lt (Nat.add_le_add_right h.2 32) (by decide)))
  else c

/-- strings.ToLower on a format name. -/
def goToLower (s : String) : String := ⟨s.data.map goCharToLower⟩

/-- Go map lookup on the association-list model of map[string]Handler. -/
def mapLookup (m : List (String × Handler)) (k : String) : Option Handler :=
  match m with
  | [] => none
  | (k₂, h) :: rest => if k₂ = k then some h else mapLookup rest k

/-- Go map insertion: replaces the entry for an existing key, otherwise
appends. -/
def mapSet (m : List (String × Handler)) (k : String) (h : Handler) :
    List (String × Handler) :=
  match m with
  | [] => [(k, h)]
  | (k₂, h₂) :: rest =>
    if k₂ = k then (k, h) :: rest else (k₂, h₂) :: mapSet rest k h

/-- The Renderer registry (renderer.go): a map from format name to Handler. -/
structure Renderer where
  Handlers : List (String × Handler)

/-- The keys currently present in the registry map. -/
def Renderer.formatKeys (r : Renderer) : List String :=
  r.Handlers.map Prod.fst

/-- Renderer.Add (renderer.go): the primary name is inserted lower-cased when
non-empty; when the handler implements FormatsHandler, each declared name is
also inserted lower-cased, skipping empty names and the primary name itself. -/
def Renderer.Add (r : Renderer) (format : String) (h : Handler) : Renderer :=
  let m := if format ≠ "" then mapSet r.Handlers (goToLower format) h
           else r.Handlers
  match h.formats? with
  | none => ⟨m⟩
  | some fs =>
    ⟨fs.foldl
      (fun acc f => if f ≠ "" ∧ f ≠ format then mapSet acc (goToLower f) h
                    else acc) m⟩

/-- New (renderer.go): builds an empty registry and Adds every pair. The Go
argument is a map whose iteration order is unspecified; the model takes the
pairs as a list, and the properties proved below hold for every order. -/
def New (pairs : List (String × Handler)) : Renderer :=
  pairs.foldl (fun r p => r.Add p.1 p.2) ⟨[]⟩

/-- The lookup Renderer.Render performs: the requested format is lower-cased
first. -/
def Renderer.lookup (r : Renderer) (format : String) : Option Handler :=
  mapLookup r.Handlers (goToLower format)

/-- Renderer.Render (renderer.go): look up the lower-cased format; dispatch
pretty or plain; then classify the handler's error: ErrCannotRender becomes
ErrUnsupportedFormat naming the format, other errors are wrapped in ErrFailed
unless they already wrap it, nil passes through. -/
def Renderer.Render (r : Renderer) (w : GoWriter) (format : String)
    (pretty : Bool) (v : GoValue) : GoWriter × Option GoErr :=
  match r.lookup format with
  | none => (w, some (.wrap ErrUnsupportedFormat format))
  | some handler =>
    match handler.invoke pretty w v with
    | (w₂, none) => (w₂, none)
    | (w₂, some err) =>
      if err.is ErrCannotRender then
        (w₂, some (.wrap ErrUnsupportedFormat format))
      else if err.is ErrFailed then (w₂, some err)
      else (w₂, some (.wrap2 ErrFailed err))

/-- Renderer.NewWith (renderer.go): collect, under their requested (original
casing) names, the handlers found for each requested format, silently
skipping names whose lower-cased form is not registered; then build a fresh
Renderer from them with New. -/
def Renderer.NewWith (r : Renderer) (formats : List String) : Renderer :=
  New (formats.foldl
    (fun acc format =>
      match mapLookup r.Handlers (goToLower format) with
      | some h => mapSet acc format h
      | none => acc) [])

/-- The Multi fallback composer (multi.go, Handler variant): an ordered list
of Handlers. -/
structure Multi where
  Handlers : List Handler

/-- Worker for Multi.Render: try each handler in order; nil error is terminal
success; an error matching ErrCannotRender advances to the next handler; any
other error is terminal; an exhausted list yields ErrCannotRender annotated
with the value's %T type name. -/
def Multi.renderList : List Handler → GoWriter → GoValue → GoWriter × Option GoErr
  | [], w, v => (w, some (.wrap ErrCannotRender v.typeName))
  | h :: rest, w, v =>
    match h.render w v with
    | (w₂, none) => (w₂, none)
    | (w₂, some e) =>
      if e.is ErrCannotRender then Multi.renderList rest w₂ v
      else (w₂, some e)

/-- Multi.Render (multi.go). -/
def Multi.Render (m : Multi) (w : GoWriter) (v : GoValue) :
    GoWriter × Option GoErr :=
  Multi.renderList m.Handlers w v

/-- Worker for Multi.RenderPretty: identical to Multi.renderList, except each
handler implementing PrettyHandler is invoked through RenderPretty. -/
def Multi.renderPrettyList :
    List Handler → GoWriter → GoValue → GoWriter × Option GoErr
  | [], w, v => (w, some (.wrap ErrCannotRender v.typeName))
  | h :: rest, w, v =>
    match (match h.renderPretty? with
           | some rp => rp w v
           | none => h.render w v) with
    | (w₂, none) => (w₂, none)
    | (w₂, some e) =>
      if e.is ErrCannotRender then Multi.renderPrettyList rest w₂ v
      else (w₂, some e)

/-- Multi.RenderPretty (multi.go). -/
def Multi.RenderPretty (m : Multi) (w : GoWriter) (v : GoValue) :
    GoWriter × Option GoErr :=
  Multi.renderPrettyList m.Handlers w v

/-- The key set of the Go map built by Multi.Formats, as the first-seen
ordered list of distinct declared format names (a canonical representation of
the map's keys). -/
def Multi.formatKeySet (m : Multi) : List String :=
  m.Handlers.foldl
    (fun acc h =>
      match h.formats? with
      | some fs => fs.foldl (fun a f => if f ∈ a then a else a ++ [f]) acc
      | none => acc) []

/-- Multi.Formats (multi.go): the declared formats of the contained handlers
are collected into a Go map (de-duplicating them) and then read back by `for
f := range formats`, whose order is unspecified; `order` models that
iteration, and is meaningful only when it permutes the key set. -/
def Multi.Formats (m : Multi) (order : List String → List String) :
    List String :=
  order m.formatKeySet

/-- The Text coercion handler's type switch (text.go): the first matching
case runs and its write outcome is final; `none` means no case matched. -/
def Text.step (w : GoWriter) : GoValue → Option (GoWriter × Option GoErr)
  | .goBytes s => some (w.write s)
  | .goRunes s => some (w.write s)
  | .goString s => some (w.write s)
  | .goInt n => some (w.write (toString n))
  | .goUint n => some (w.write (toString n))
  | .goFloat fmtV => some (w.write fmtV)
  | .goBool b => some (w.write (if b then "true" else "false"))
  | .iface reader? writerTo? stringer? errMsg? _ =>
    match reader? with
    | some c => some (w.write c)
    | none =>
      match writerTo? with
      | some c => some (w.write c)
      | none =>
        match stringer? with
        | some s => some (w.write s)
        | none =>
          match errMsg? with
          | some msg => some (w.write msg)
          | none => none

/-- Text.Render (text.go): run the type switch; no matching case returns
ErrCannotRender annotated with %T; a write error from the matched case is
wrapped as fmt.Errorf("%w: %w", ErrFailed, err); otherwise success. -/
def Text.Render (w : GoWriter) (v : GoValue) : GoWriter × Option GoErr :=
  match Text.step w v with
  | none => (w, some (.wrap ErrCannotRender v.typeName))
  | some (w₂, none) => (w₂, none)
  | some (w₂, some e) => (w₂, some (.wrap2 ErrFailed e))

/-! Helper lemmas about the lower-casing model. -/

theorem toNat_ofNatAux (n : Nat) (h : n.isValidChar) :
    (Char.ofNatAux n h).toNat = n := rfl

theorem goCharToLower_idem (c : Char) :
    goCharToLower (goCharToLower c) = goCharToLower c := by
  by_cases h : 65 ≤ c.toNat ∧ c.toNat ≤ 90
  · simp only [goCharToLower, dif_pos h]
    rw [dif_neg]
    rw [toNat_ofNatAux]
    omega
  · simp only [goCharToLower, dif_neg h]

theorem map_goCharToLower_idem (l : List Char) :
    (l.map goCharToLower).map goCharToLower = l.map goCharToLower := by
  induction l with
  | nil => rfl
  | cons c l ih => simp [goCharToLower_idem, ih]

theorem goToLower_idem (s : String) : goToLower (goToLower s) = goToLower s :=
  congrArg String.mk (map_goCharToLower_idem s.data)

theorem goToLower_ne_empty (s : String) (h : s ≠ "") : goToLower s ≠ "" := by
  cases s with
  | mk l =>
    cases l with
    | nil => exact absurd rfl h
    | cons c l =>
      intro hc
      have hd := congrArg String.data hc
      simp [goToLower] at hd

/-! Helper lemmas about the association-list model of Go maps. -/

theorem mapLookup_mapSet (m : List (String × Handler)) (k k₂ : String)
    (h : Handler) :
    mapLookup (mapSet m k h) k₂ = if k = k₂ then some h else mapLookup m k₂ := by
  induction m with
  | nil => rfl
  | cons p rest ih =>
    obtain ⟨k₃, h₃⟩ := p
    by_cases hk : k₃ = k
    · subst hk
      have hset : mapSet ((k₃, h₃) :: rest) k₃ h = (k₃, h) :: rest := by
        simp [mapSet]
      rw [hset]
      simp only [mapLookup]
      by_cases hk2 : k₃ = k₂ <;> simp [hk2]
    · simp only [mapSet, if_neg hk, mapLookup, ih]
      by_cases hk2 : k₃ = k₂
      · subst hk2
        have hk3 : ¬(k = k₃) := fun hcon => hk hcon.symm
        simp [hk3]
      · simp [hk2]

theorem mem_keys_mapSet (m : List (String × Handler)) (k k₂ : String)
    (h : Handler) :
    k₂ ∈ (mapSet m k h).map Prod.fst ↔ k₂ ∈ m.map Prod.fst ∨ k₂ = k := by
  induction m with
  | nil => simp [mapSet]
  | cons p rest ih =>
    obtain ⟨k₃, h₃⟩ := p
    by_cases hk : k₃ = k
    · subst hk
      have hset : mapSet ((k₃, h₃) :: rest) k₃ h = (k₃, h) :: rest := by
        simp [mapSet]
      rw [hset]
      simp only [List.map_cons, List.mem_cons]
      tauto
    · simp only [mapSet, if_neg hk, List.map_cons, List.mem_cons, ih]
      tauto

/-! Key-predicate preservation through Add, New and NewWith. -/

theorem foldl_add_keys_pred (P : String → Prop)
    (hlow : ∀ f : String, f ≠ "" → P (goToLower f)) (h : Handler)
    (format : String) :
    ∀ (fs : List String) (m : List (String × Handler)),
      (∀ k, k ∈ m.map Prod.fst → P k) →
      ∀ k,
        k ∈ (fs.foldl
          (fun acc f =>
            if f ≠ "" ∧ f ≠ format then mapSet acc (goToLower f) h else acc)
          m).map Prod.fst → P k := by
  intro fs
  induction fs with
  | nil => intro m hm k hk; exact hm k hk
  | cons f rest ih =>
    intro m hm k hk
    simp only [List.foldl_cons] at hk
    by_cases hc : f ≠ "" ∧ f ≠ format
    · rw [if_pos hc] at hk
      refine ih (mapSet m (goToLower f) h) ?_ k hk
      intro k₂ hk₂
      rcases (mem_keys_mapSet m (goToLower f) k₂ h).mp hk₂ with hin | heq
      · exact hm k₂ hin
      · rw [heq]; exact hlow f hc.1
    · rw [if_neg hc] at hk
      exact ih m hm k hk

theorem add_keys_pred (P : String → Prop)
    (hlow : ∀ f : String, f ≠ "" → P (goToLower f)) (r : Renderer)
    (format : String) (h : Handler)
    (hr : ∀ k, k ∈ r.formatKeys → P k) :
    ∀ k, k ∈ (r.Add format h).formatKeys → P k := by
  intro k hk
  have hbase : ∀ k₂,
      k₂ ∈ (if format ≠ "" then mapSet r.Handlers (goToLower format) h
            else r.Handlers).map Prod.fst → P k₂ := by
    intro k₂ hk₂
    by_cases hf : format ≠ ""
    · rw [if_pos hf] at hk₂
      rcases (mem_keys_mapSet r.Handlers (goToLower format) k₂ h).mp hk₂ with
        hin | heq
      · exact hr k₂ hin
      · rw [heq]; exact hlow format hf
    · rw [if_neg hf] at hk₂
      exact hr k₂ hk₂
  unfold Renderer.Add at hk
  cases hfs : h.formats? with
  | none =>
    rw [hfs] at hk
    exact hbase k hk
  | some fs =>
    rw [hfs] at hk
    exact foldl_add_keys_pred P hlow h format fs _ hbase k hk

theorem new_keys_pred (P : String → Prop)
    (hlow : ∀ f : String, f ≠ "" → P (goToLower f)) :
    ∀ (pairs : List (String × Handler)) (r : Renderer),
      (∀ k, k ∈ r.formatKeys → P k) →
      ∀ k,
        k ∈ (pairs.foldl (fun r p => r.Add p.1 p.2) r).formatKeys → P k := by
  intro pairs
  induction pairs with
  | nil => intro r hr k hk; exact hr k hk
  | cons p rest ih =>
    intro r hr k hk
    simp only [List.foldl_cons] at hk
    exact ih (r.Add p.1 p.2) (add_keys_pred P hlow r p.1 p.2 hr) k hk

theorem New_keys_pred (P : String → Prop)
    (hlow : ∀ f : String, f ≠ "" → P (goToLower f))
    (pairs : List (String × Handler)) :
    ∀ k, k ∈ (New pairs).formatKeys → P k := by
  intro k hk
  exact new_keys_pred P hlow pairs ⟨[]⟩ (by intro k₂ hk₂; simp [Renderer.formatKeys] at hk₂) k hk

theorem NewWith_keys_pred (P : String → Prop)
    (hlow : ∀ f : String, f ≠ "" → P (goToLower f)) (r : Renderer)
    (formats : List String) :
    ∀ k, k ∈ (r.NewWith formats).formatKeys → P k := by
  intro k hk
  exact New_keys_pred P hlow _ k hk

/-! Lookup of an inserted alias key after Add. -/

theorem mapLookup_foldl_mapSet_stable (h : Handler) (format : String)
    (k : String) :
    ∀ (fs : List String) (m : List (String × Handler)),
      mapLookup m k = some h →
      mapLookup
        (fs.foldl
          (fun acc f =>
            if f ≠ "" ∧ f ≠ format then mapSet acc (goToLower f) h else acc)
          m) k = some h := by
  intro fs
  induction fs with
  | nil => intro m hm; exact hm
  | cons f rest ih =>
    intro m hm
    simp only [List.foldl_cons]
    by_cases hc : f ≠ "" ∧ f ≠ format
    · rw [if_pos hc]
      refine ih _ ?_
      rw [mapLookup_mapSet]
      by_cases he : goToLower f = k
      · rw [if_pos he]
      · rw [if_neg he]; exact hm
    · rw [if_neg hc]
      exact ih m hm

theorem mapLookup_foldl_mapSet_mem (h : Handler) (format : String)
    (f : String) (hf1 : f ≠ "") (hf2 : f ≠ format) :
    ∀ (fs : List String) (m : List (String × Handler)), f ∈ fs →
      mapLookup
        (fs.foldl
          (fun acc g =>
            if g ≠ "" ∧ g ≠ format then mapSet acc (goToLower g) h else acc)
          m) (goToLower f) = some h := by
  intro fs
  induction fs with
  | nil => intro m hm; simp at hm
  | cons g rest ih =>
    intro m hm
    simp only [List.foldl_cons]
    rcases List.mem_cons.mp hm with heq | hmem
    · subst heq
      rw [if_pos ⟨hf1, hf2⟩]
      exact mapLookup_foldl_mapSet_stable h format (goToLower f) rest _
        (by rw [mapLookup_mapSet, if_pos rfl])
    · by_cases hc : g ≠ "" ∧ g ≠ format
      · rw [if_pos hc]; exact ih _ hmem
      · rw [if_neg hc]; exact ih m hmem

theorem Add_lookup_alias (r : Renderer) (h : Handler) (fs : List String)
    (f : String) (hfs : h.formats? = some fs) (hmem : f ∈ fs) (hf : f ≠ "") :
    (r.Add "" h).lookup f = some h := by
  unfold Renderer.Add Renderer.lookup
  rw [hfs]
  simp only [ne_eq, not_true_eq_false, if_false, ite_false]
  exact mapLookup_foldl_mapSet_mem h "" f hf hf fs r.Handlers hmem

/-! Multi.Formats: the de-duplicating fold into the Go map. -/

theorem mem_dedup_foldl (fs : List String) :
    ∀ (acc : List String) (x : String),
      x ∈ fs.foldl (fun a f => if f ∈ a then a else a ++ [f]) acc ↔
        x ∈ acc ∨ x ∈ fs := by
  induction fs with
  | nil => intro acc x; simp
  | cons f rest ih =>
    intro acc x
    simp only [List.foldl_cons, ih, List.mem_cons]
    by_cases hf : f ∈ acc
    · rw [if_pos hf]
      constructor
      · tauto
      · rintro (hx | hx | hx)
        · tauto
        · subst hx; tauto
        · tauto
    · rw [if_neg hf]
      simp only [List.mem_append, List.mem_singleton]
      tauto

theorem nodup_dedup_foldl (fs : List String) :
    ∀ acc : List String, acc.Nodup →
      (fs.foldl (fun a f => if f ∈ a then a else a ++ [f]) acc).Nodup := by
  induction fs with
  | nil => intro acc h; exact h
  | cons f rest ih =>
    intro acc h
    simp only [List.foldl_cons]
    by_cases hf : f ∈ acc
    · rw [if_pos hf]; exact ih acc h
    · rw [if_neg hf]
      refine ih _ ?_
      rw [List.nodup_append]
      exact ⟨h, List.nodup_singleton f, by simpa [List.disjoint_singleton]⟩

theorem mem_formatKeySet_foldl :
    ∀ (hs : List Handler) (acc : List String) (x : String),
      x ∈ hs.foldl
        (fun acc h =>
          match h.formats? with
          | some fs => fs.foldl (fun a f => if f ∈ a then a else a ++ [f]) acc
          | none => acc) acc ↔
        x ∈ acc ∨ ∃ h, h ∈ hs ∧ ∃ fs, h.formats? = some fs ∧ x ∈ fs := by
  intro hs
  induction hs with
  | nil => intro acc x; simp
  | cons h rest ih =>
    intro acc x
    simp only [List.foldl_cons]
    cases hfs : h.formats? with
    | none =>
      rw [ih]
      constructor
      · rintro (hx | hx)
        · tauto
        · rcases hx with ⟨h₂, hh₂, hx⟩
          exact Or.inr ⟨h₂, List.mem_cons_of_mem h hh₂, hx⟩
      · rintro (hx | hx)
        · tauto
        · rcases hx with ⟨h₂, hh₂, fs, hfs₂, hx⟩
          rcases List.mem_cons.mp hh₂ with heq | hmem
          · subst heq; rw [hfs] at hfs₂; cases hfs₂
          · exact Or.inr ⟨h₂, hmem, fs, hfs₂, hx⟩
    | some fs =>
      rw [ih, mem_dedup_foldl]
      constructor
      · rintro ((hx | hx) | hx)
        · tauto
        · exact Or.inr ⟨h, List.mem_cons_self h rest, fs, hfs, hx⟩
        · rcases hx with ⟨h₂, hh₂, hx⟩
          exact Or.inr ⟨h₂, List.mem_cons_of_mem h hh₂, hx⟩
      · rintro (hx | hx)
        · tauto
        · rcases hx with ⟨h₂, hh₂, fs₂, hfs₂, hx⟩
          rcases List.mem_cons.mp hh₂ with heq | hmem
          · subst heq
            rw [hfs] at hfs₂
            cases hfs₂
            exact Or.inl (Or.inr hx)
          · exact Or.inr ⟨h₂, hmem, fs₂, hfs₂, hx⟩

theorem nodup_formatKeySet_foldl :
    ∀ (hs : List Handler) (acc : List String), acc.Nodup →
      (hs.foldl
        (fun acc h =>
          match h.formats? with
          | some fs => fs.foldl (fun a f => if f ∈ a then a else a ++ [f]) acc
          | none => acc) acc).Nodup := by
  intro hs
  induction hs with
  | nil => intro acc h; exact h
  | cons h rest ih =>
    intro acc hnd
    simp only [List.foldl_cons]
    cases hfs : h.formats? with
    | none => exact ih acc hnd
    | some fs => exact ih _ (nodup_dedup_foldl fs acc hnd)

theorem mem_formatKeySet (m : Multi) (x : String) :
    x ∈ m.formatKeySet ↔
      ∃ h, h ∈ m.Handlers ∧ ∃ fs, h.formats? = some fs ∧ x ∈ fs := by
  unfold Multi.formatKeySet
  rw [mem_formatKeySet_foldl]
  simp

theorem nodup_formatKeySet (m : Multi) : m.formatKeySet.Nodup :=
  nodup_formatKeySet_foldl m.Handlers [] List.nodup_nil

/-! Multi.Render / Multi.RenderPretty: short-circuit and advance lemmas. -/

theorem renderList_append_of_success :
    ∀ (hs post : List Handler) (w : GoWriter) (v : GoValue),
      (Multi.renderList hs w v).2 = none →
      Multi.renderList (hs ++ post) w v = Multi.renderList hs w v := by
  intro hs
  induction hs with
  | nil =>
    intro post w v hnone
    simp [Multi.renderList] at hnone
  | cons h rest ih =>
    intro post w v hnone
    rcases hr : h.render w v with ⟨w₂, err?⟩
    cases err? with
    | none => simp [Multi.renderList, hr, List.cons_append]
    | some e =>
      by_cases hcr : e.is ErrCannotRender
      · simp only [Multi.renderList, hr, if_pos hcr, List.cons_append] at hnone ⊢
        exact ih post w₂ v hnone
      · simp only [Multi.renderList, hr, if_neg hcr] at hnone
        simp at hnone

theorem renderPrettyList_append_of_success :
    ∀ (hs post : List Handler) (w : GoWriter) (v : GoValue),
      (Multi.renderPrettyList hs w v).2 = none →
      Multi.renderPrettyList (hs ++ post) w v = Multi.renderPrettyList hs w v := by
  intro hs
  induction hs with
  | nil =>
    intro post w v hnone
    simp [Multi.renderPrettyList] at hnone
  | cons h rest ih =>
    intro post w v hnone
    rcases hr : (match h.renderPretty? with
                 | some rp => rp w v
                 | none => h.render w v) with ⟨w₂, err?⟩
    cases err? with
    | none => simp [Multi.renderPrettyList, hr, List.cons_append]
    | some e =>
      by_cases hcr : e.is ErrCannotRender
      · simp only [Multi.renderPrettyList, hr, if_pos hcr,
          List.cons_append] at hnone ⊢
        exact ih post w₂ v hnone
      · simp only [Multi.renderPrettyList, hr, if_neg hcr] at hnone
        simp at hnone

theorem renderList_exhaust (v : GoValue) :
    ∀ (hs : List Handler),
      (∀ h, h ∈ hs → ∀ w₂ : GoWriter,
        ∃ w₃ e, h.render w₂ v = (w₃, some e) ∧ e.is ErrCannotRender = true) →
      ∀ w : GoWriter, ∃ w₃ : GoWriter,
        Multi.renderList hs w v =
          (w₃, some (.wrap ErrCannotRender v.typeName)) := by
  intro hs
  induction hs with
  | nil => intro _ w; exact ⟨w, rfl⟩
  | cons h rest ih =>
    intro hall w
    rcases hall h (List.mem_cons_self h rest) w with ⟨w₃, e, hr, hcr⟩
    have hrest := fun h₂ hh₂ => hall h₂ (List.mem_cons_of_mem h hh₂)
    rcases ih hrest w₃ with ⟨w₄, hrec⟩
    refine ⟨w₄, ?_⟩
    simp [Multi.renderList, hr, hcr, hrec]

/-! Concrete stub handlers and writers used to instantiate the theorems. -/

/-- An empty healthy writer. -/
def w0 : GoWriter := { buf := "", failWith? := none }

/-- A handler that writes a fixed string and succeeds. -/
def okStub (out : String) : Handler :=
  { render := fun w _ => w.write out, renderPretty? := none, formats? := none }

/-- A handler that always reports ErrCannotRender. -/
def cannotStub : Handler :=
  { render := fun w _ => (w, some ErrCannotRender), renderPretty? := none,
    formats? := none }

/-- A handler that always fails with a genuine (non-capability) error. -/
def failStub : Handler :=
  { render := fun w _ => (w, some (GoErr.leaf "boom")), renderPretty? := none,
    formats? := none }

/-- A rendering function that always reports ErrCannotRender. -/
def cannotRenderFn : RenderFn := fun w _ => (w, some ErrCannotRender)

/-- A pretty-capable handler whose plain Render succeeds but whose
RenderPretty reports ErrCannotRender. -/
def prettyCannotStub : Handler :=
  { render := fun w _ => w.write "plain",
    renderPretty? := some cannotRenderFn, formats? := none }

/-- A handler declaring the alias list ["yaml", "yml"]. -/
def yamlStub : Handler :=
  { render := fun w _ => (w, none), renderPretty? := none,
    formats? := some ["yaml", "yml"] }

/-- C1: Renderer.Render classifies errors: an unregistered (lower-cased)
format yields an unsupported-format error naming the requested format; a
handler error matching ErrCannotRender yields an ErrUnsupportedFormat error
naming the format; any other handler error already wrapping ErrFailed is
returned unchanged (never wrapped twice), otherwise it is wrapped in
ErrFailed; a nil handler result yields nil. -/
theorem renderer_render_error_classification :
    ∀ (r : Renderer) (w : GoWriter) (format : String) (pretty : Bool)
      (v : GoValue),
      (r.lookup format = none →
        r.Render w format pretty v =
          (w, some (.wrap ErrUnsupportedFormat format)))
      ∧ (∀ h : Handler, r.lookup format = some h →
          (∀ w₂ : GoWriter, h.invoke pretty w v = (w₂, none) →
            r.Render w format pretty v = (w₂, none))
          ∧ (∀ (w₂ : GoWriter) (e : GoErr),
              h.invoke pretty w v = (w₂, some e) →
              (e.is ErrCannotRender = true →
                r.Render w format pretty v =
                  (w₂, some (.wrap ErrUnsupportedFormat format)))
              ∧ (e.is ErrCannotRender = false → e.is ErrFailed = true →
                  r.Render w format pretty v = (w₂, some e))
              ∧ (e.is ErrCannotRender = false → e.is ErrFailed = false →
                  r.Render w format pretty v =
                    (w₂, some (.wrap2 ErrFailed e))))) := by
  intro r w format pretty v
  constructor
  · intro hnone; simp [Renderer.Render, hnone]
  · intro h hsome
    constructor
    · intro w₂ hinv; simp [Renderer.Render, hsome, hinv]
    · intro w₂ e hinv
      refine ⟨?_, ?_, ?_⟩
      · intro hcr; simp [Renderer.Render, hsome, hinv, hcr]
      · intro hcr hf; simp [Renderer.Render, hsome, hinv, hcr, hf]
      · intro hcr hf; simp [Renderer.Render, hsome, hinv, hcr, hf]

/-- Witness for C1: the unknown-name, cannot-render, and wrap-in-ErrFailed
branches at concrete inputs. -/
theorem renderer_render_error_classification_witness :
    (New [("json", cannotStub)]).Render w0 "toml" false (.goInt 7) =
      (w0, some (.wrap ErrUnsupportedFormat "toml"))
    ∧ (New [("json", cannotStub)]).Render w0 "json" false (.goInt 7) =
      (w0, some (.wrap ErrUnsupportedFormat "json"))
    ∧ (New [("json", failStub)]).Render w0 "json" false (.goInt 7) =
      (w0, some (.wrap2 ErrFailed (.leaf "boom"))) :=
  ⟨(renderer_render_error_classification (New [("json", cannotStub)]) w0
      "toml" false (.goInt 7)).1 rfl,
   (((renderer_render_error_classification (New [("json", cannotStub)]) w0
      "json" false (.goInt 7)).2 cannotStub rfl).2 w0 ErrCannotRender rfl).1
      (by decide),
   ((((renderer_render_error_classification (New [("json", failStub)]) w0
      "json" false (.goInt 7)).2 failStub rfl).2 w0 (.leaf "boom") rfl).2.2
      (by decide) (by decide))⟩

/-- C2: once a handler succeeds, Multi.Render and Multi.RenderPretty return
that success and handlers positioned after it are never invoked (appending
any further handlers, even failing ones, does not change the result); the
pretty walk uses a handler's RenderPretty when present and its plain Render
otherwise. -/
theorem multi_short_circuit_on_success :
    ∀ (hs post : List Handler) (w : GoWriter) (v : GoValue),
      ((Multi.Render ⟨hs⟩ w v).2 = none →
        Multi.Render ⟨hs ++ post⟩ w v = Multi.Render ⟨hs⟩ w v)
      ∧ ((Multi.RenderPretty ⟨hs⟩ w v).2 = none →
        Multi.RenderPretty ⟨hs ++ post⟩ w v = Multi.RenderPretty ⟨hs⟩ w v)
      ∧ (∀ (h : Handler) (w₂ : GoWriter), h.render w v = (w₂, none) →
          Multi.Render ⟨h :: post⟩ w v = (w₂, none))
      ∧ (∀ (h : Handler) (rp : RenderFn) (w₂ : GoWriter),
          h.renderPretty? = some rp → rp w v = (w₂, none) →
          Multi.RenderPretty ⟨h :: post⟩ w v = (w₂, none))
      ∧ (∀ (h : Handler) (w₂ : GoWriter), h.renderPretty? = none →
          h.render w v = (w₂, none) →
          Multi.RenderPretty ⟨h :: post⟩ w v = (w₂, none)) := by
  intro hs post w v
  refine ⟨?_, ?_, ?_, ?_, ?_⟩
  · exact renderList_append_of_success hs post w v
  · exact renderPrettyList_append_of_success hs post w v
  · intro h w₂ hr
    simp [Multi.Render, Multi.renderList, hr]
  · intro h rp w₂ hrp hr
    simp [Multi.RenderPretty, Multi.renderPrettyList, hrp, hr]
  · intro h w₂ hrp hr
    simp [Multi.RenderPretty, Multi.renderPrettyList, hrp, hr]

/-- Witness for C2: a succeeding handler followed by a failing one returns
the success, and the failing handler contributes nothing. -/
theorem multi_short_circuit_on_success_witness :
    Multi.Render ⟨[okStub "X", failStub]⟩ w0 (.goInt 7) =
      ({ buf := "X", failWith? := none }, none) :=
  (multi_short_circuit_on_success [] [failStub] w0 (.goInt 7)).2.2.1
    (okStub "X") { buf := "X", failWith? := none } rfl

/-- C3: Multi.Render advances past a handler whose error matches
ErrCannotRender, returns any other handler error immediately (the trailing
handlers do not appear in the result), and on exhaustion (including the
empty list) returns ErrCannotRender annotated with the value's concrete
type name. -/
theorem multi_error_protocol :
    ∀ (w : GoWriter) (v : GoValue),
      Multi.Render ⟨[]⟩ w v = (w, some (.wrap ErrCannotRender v.typeName))
      ∧ (∀ (h : Handler) (rest : List Handler) (w₂ : GoWriter) (e : GoErr),
          h.render w v = (w₂, some e) → e.is ErrCannotRender = true →
          Multi.Render ⟨h :: rest⟩ w v = Multi.Render ⟨rest⟩ w₂ v)
      ∧ (∀ (h : Handler) (rest : List Handler) (w₂ : GoWriter) (e : GoErr),
          h.render w v = (w₂, some e) → e.is ErrCannotRender = false →
          Multi.Render ⟨h :: rest⟩ w v = (w₂, some e))
      ∧ (∀ hs : List Handler,
          (∀ h, h ∈ hs → ∀ w₂ : GoWriter, ∃ w₃ e,
            h.render w₂ v = (w₃, some e) ∧ e.is ErrCannotRender = true) →
          ∃ w₃, Multi.Render ⟨hs⟩ w v =
            (w₃, some (.wrap ErrCannotRender v.typeName))) := by
  intro w v
  refine ⟨rfl, ?_, ?_, ?_⟩
  · intro h rest w₂ e hr hcr
    simp [Multi.Render, Multi.renderList, hr, hcr]
  · intro h rest w₂ e hr hcr
    simp [Multi.Render, Multi.renderList, hr, hcr]
  · intro hs hall
    exact renderList_exhaust v hs hall w

/-- Witness for C3: a cannot-render handler is skipped, a genuinely failing
handler is terminal without the later handler appearing in the result. -/
theorem multi_error_protocol_witness :
    Multi.Render ⟨[cannotStub]⟩ w0 (.goInt 7) = Multi.Render ⟨[]⟩ w0 (.goInt 7)
    ∧ Multi.Render ⟨[failStub, okStub "X"]⟩ w0 (.goInt 7) =
        (w0, some (.leaf "boom")) :=
  ⟨(multi_error_protocol w0 (.goInt 7)).2.1 cannotStub [] w0 ErrCannotRender
      rfl (by decide),
   (multi_error_protocol w0 (.goInt 7)).2.2.1 failStub [okStub "X"] w0
      (.leaf "boom") rfl (by decide)⟩

/-- C7 (amended): for every iteration order of the Go map's keys (any
permutation), Multi.Formats returns exactly the de-duplicated union of the
Formats() lists of the contained handlers that implement FormatsHandler,
with handlers lacking the capability contributing nothing; the order of the
returned list is unspecified, not first-seen. -/
theorem multi_formats_dedup_union :
    ∀ (m : Multi) (order : List String → List String),
      (∀ l, List.Perm (order l) l) →
      List.Perm (m.Formats order) m.formatKeySet
      ∧ (∀ f, f ∈ m.Formats order ↔
          ∃ h, h ∈ m.Handlers ∧ ∃ fs, h.formats? = some fs ∧ f ∈ fs)
      ∧ m.formatKeySet.Nodup ∧ (m.Formats order).Nodup := by
  intro m order hperm
  have hp : List.Perm (m.Formats order) m.formatKeySet := hperm m.formatKeySet
  refine ⟨hp, ?_, nodup_formatKeySet m, ?_⟩
  · intro f
    rw [hp.mem_iff, mem_formatKeySet]
  · exact hp.symm.nodup (nodup_formatKeySet m)

/-- Witness for C7 (amended): the identity iteration order on a Multi with a
single alias-declaring handler. -/
theorem multi_formats_dedup_union_witness :
    List.Perm (Multi.Formats ⟨[yamlStub]⟩ id) (Multi.formatKeySet ⟨[yamlStub]⟩)
    ∧ ("yml" ∈ Multi.Formats ⟨[yamlStub]⟩ id ↔
        ∃ h, h ∈ Multi.Handlers ⟨[yamlStub]⟩ ∧
          ∃ fs, h.formats? = some fs ∧ "yml" ∈ fs) :=
  ⟨(multi_formats_dedup_union ⟨[yamlStub]⟩ id (fun l => List.Perm.refl l)).1,
   (multi_formats_dedup_union ⟨[yamlStub]⟩ id (fun l => List.Perm.refl l)).2.1
     "yml"⟩

/-- Counterexample for C7 as stated: reversal is a legitimate iteration
order of the two-element key set (it is a permutation of it), yet under it
Multi.Formats does not return the first-seen order ["yaml", "yml"]. -/
theorem multi_formats_not_first_seen_counterexample :
    List.Perm (List.reverse ["yaml", "yml"]) ["yaml", "yml"]
    ∧ Multi.formatKeySet ⟨[yamlStub]⟩ = ["yaml", "yml"]
    ∧ Multi.Formats ⟨[yamlStub]⟩ List.reverse ≠ ["yaml", "yml"] := by
  refine ⟨by decide, by decide, by decide⟩

/-- C8: when the handler registered for a format implements no RenderPretty,
Renderer.Render with pretty=true and pretty=false produce identical writer
output and identical errors. -/
theorem renderer_pretty_fallback_compact :
    ∀ (r : Renderer) (format : String) (h : Handler),
      r.lookup format = some h → h.renderPretty? = none →
      ∀ (w : GoWriter) (v : GoValue),
        r.Render w format true v = r.Render w format false v := by
  intro r format h hsome hnp w v
  have hinv : h.invoke true w v = h.invoke false w v := by
    simp [Handler.invoke, hnp]
  simp [Renderer.Render, hsome, hinv]

/-- Witness for C8: a plain handler renders identically under pretty and
compact requests. -/
theorem renderer_pretty_fallback_compact_witness :
    (New [("text", okStub "T")]).Render w0 "text" true (.goInt 1) =
      (New [("text", okStub "T")]).Render w0 "text" false (.goInt 1) :=
  renderer_pretty_fallback_compact (New [("text", okStub "T")]) "text"
    (okStub "T") rfl rfl w0 (.goInt 1)

/-- C9: when the resolved handler implements PrettyHandler and pretty=true,
only RenderPretty is consulted (the dispatch result is exactly the
RenderPretty result, with no reference to the plain Render), and a
RenderPretty error matching ErrCannotRender yields ErrUnsupportedFormat even
though no fallback to the plain path occurs. -/
theorem renderer_pretty_no_fallback :
    ∀ (r : Renderer) (format : String) (h : Handler) (rp : RenderFn),
      r.lookup format = some h → h.renderPretty? = some rp →
      ∀ (w : GoWriter) (v : GoValue),
        h.invoke true w v = rp w v
        ∧ (∀ (w₂ : GoWriter) (e : GoErr), rp w v = (w₂, some e) →
            e.is ErrCannotRender = true →
            r.Render w format true v =
              (w₂, some (.wrap ErrUnsupportedFormat format))) := by
  intro r format h rp hsome hrp w v
  constructor
  · simp [Handler.invoke, hrp]
  · intro w₂ e hrpv hcr
    have hinv : h.invoke true w v = (w₂, some e) := by
      simp [Handler.invoke, hrp, hrpv]
    simp [Renderer.Render, hsome, hinv, hcr]

/-- Witness for C9: a handler whose plain Render succeeds but whose
RenderPretty reports ErrCannotRender makes the pretty request fail with
ErrUnsupportedFormat: no fallback to the compact path happens. -/
theorem renderer_pretty_no_fallback_witness :
    prettyCannotStub.render w0 (.goInt 1) =
      ({ buf := "plain", failWith? := none }, none)
    ∧ (New [("json", prettyCannotStub)]).Render w0 "json" true (.goInt 1) =
        (w0, some (.wrap ErrUnsupportedFormat "json")) :=
  ⟨rfl,
   (renderer_pretty_no_fallback (New [("json", prettyCannotStub)]) "json"
      prettyCannotStub cannotRenderFn rfl rfl w0 (.goInt 1)).2 w0
      ErrCannotRender rfl (by decide)⟩

/-- C4: Text.Render's type switch has the fixed precedence byte slice, rune
slice, string, numeric/bool scalars, io.Reader, io.WriterTo, fmt.Stringer,
error; the first matching branch is final (a value implementing an earlier
capability renders identically whether or not it also implements later
ones), a matched branch's write error is an ErrFailed operation failure (not
a fallthrough), a value matching nothing yields ErrCannotRender with its
type name, and []byte("ab"), a "v1.2.3" Stringer, integer 42 and boolean
false render as "ab", "v1.2.3", "42", "false". -/
theorem text_render_precedence :
    (∀ b : String, Text.Render ⟨b, none⟩ (.goBytes "ab") =
      (⟨b ++ "ab", none⟩, none))
    ∧ (∀ b ty : String, Text.Render ⟨b, none⟩
        (.iface none none (some "v1.2.3") none ty) =
        (⟨b ++ "v1.2.3", none⟩, none))
    ∧ (∀ b : String, Text.Render ⟨b, none⟩ (.goInt 42) =
        (⟨b ++ "42", none⟩, none))
    ∧ (∀ b : String, Text.Render ⟨b, none⟩ (.goBool false) =
        (⟨b ++ "false", none⟩, none))
    ∧ (∀ (w : GoWriter) (ty : String),
        Text.Render w (.iface none none none none ty) =
          (w, some (.wrap ErrCannotRender ty)))
    ∧ (∀ (b : String) (e : GoErr) (v : GoValue),
        (Text.step ⟨b, some e⟩ v).isSome = true →
        Text.Render ⟨b, some e⟩ v = (⟨b, some e⟩, some (.wrap2 ErrFailed e)))
    ∧ (∀ (w : GoWriter) (c : String) (wt st er : Option String)
        (ty : String),
        Text.Render w (.iface (some c) wt st er ty) =
          Text.Render w (.iface (some c) none none none ty))
    ∧ (∀ (w : GoWriter) (c : String) (st er : Option String) (ty : String),
        Text.Render w (.iface none (some c) st er ty) =
          Text.Render w (.iface none (some c) none none ty))
    ∧ (∀ (w : GoWriter) (s : String) (er : Option String) (ty : String),
        Text.Render w (.iface none none (some s) er ty) =
          Text.Render w (.iface none none (some s) none ty)) := by
  refine ⟨fun b => rfl, fun b ty => rfl, fun b => rfl, fun b => rfl,
    fun w ty => rfl, ?_, fun w c wt st er ty => rfl,
    fun w c st er ty => rfl, fun w s er ty => rfl⟩
  intro b e v h
  cases v with
  | goBytes s => rfl
  | goRunes s => rfl
  | goString s => rfl
  | goInt n => rfl
  | goUint n => rfl
  | goFloat fmtV => rfl
  | goBool bb => rfl
  | iface r wt st er ty =>
    cases r with
    | some c => rfl
    | none =>
      cases wt with
      | some c => rfl
      | none =>
        cases st with
        | some s => rfl
        | none =>
          cases er with
          | some msg => rfl
          | none => simp [Text.step] at h

/-- Witness for C4: the write-error branch at a concrete failing writer, and
the byte-slice example at the empty healthy writer. -/
theorem text_render_precedence_witness :
    Text.Render ⟨"", some (.leaf "io")⟩ (.goBytes "ab") =
      (⟨"", some (.leaf "io")⟩, some (.wrap2 ErrFailed (.leaf "io")))
    ∧ Text.Render ⟨"", none⟩ (.goBytes "ab") = (⟨"" ++ "ab", none⟩, none) :=
  ⟨text_render_precedence.2.2.2.2.2.1 "" (.leaf "io") (.goBytes "ab") rfl,
   text_render_precedence.1 ""⟩

/-- Counterexample for C5 as stated: restricting a Renderer holding a
["yaml","yml"] handler to ["yml"] does not yield the key set {"yml"}: the
alias "yaml" is present again in the result. -/
theorem newwith_drops_alias_counterexample :
    ((New [("yaml", yamlStub)]).NewWith ["yml"]).formatKeys ≠ ["yml"]
    ∧ "yaml" ∈ ((New [("yaml", yamlStub)]).NewWith ["yml"]).formatKeys := by
  exact ⟨by decide, by decide⟩

/-- C5 (amended): NewWith silently drops requested names that are not
registered, and keeps each requested registered key; but since it rebuilds
the Renderer through New and Add, each retained handler's declared Formats()
aliases are registered again, so NewWith("yml") on a Renderer whose handler
declares Formats() = ["yaml","yml"] yields the key set {"yml","yaml"}, not
{"yml"}. -/
theorem newwith_restrict_with_alias_expansion :
    (∀ (r : Renderer) (f : String) (rest : List String),
        mapLookup r.Handlers (goToLower f) = none →
        r.NewWith (f :: rest) = r.NewWith rest)
    ∧ ((New [("yaml", yamlStub)]).NewWith ["yml"]).formatKeys = ["yml", "yaml"]
    ∧ ((New [("yaml", yamlStub)]).NewWith ["yml"]).lookup "yml" = some yamlStub
    ∧ ((New [("yaml", yamlStub)]).NewWith ["yml"]).lookup "yaml" =
        some yamlStub := by
  refine ⟨?_, by decide, rfl, rfl⟩
  intro r f rest hnone
  unfold Renderer.NewWith
  simp only [List.foldl_cons, hnone]

/-- Witness for C5 (amended): requesting the unregistered name "toml" is a
no-op in the restriction. -/
theorem newwith_restrict_witness :
    (New [("yaml", yamlStub)]).NewWith ["toml", "yml"] =
      (New [("yaml", yamlStub)]).NewWith ["yml"] :=
  newwith_restrict_with_alias_expansion.1 (New [("yaml", yamlStub)]) "toml"
    ["yml"] rfl

/-- C6: every key inserted by New or Add is lower-cased at insertion;
Renderer.Render's lookup lower-cases the requested format, so lookup of any
casing variant equals lookup of its canonical lowercase form, and casing
variants of the same name resolve to the same handler. -/
theorem renderer_keys_lowercase_case_insensitive :
    (∀ (pairs : List (String × Handler)) (k : String),
        k ∈ (New pairs).formatKeys → goToLower k = k)
    ∧ (∀ (r : Renderer) (format : String) (h : Handler),
        (∀ k, k ∈ r.formatKeys → goToLower k = k) →
        ∀ k, k ∈ (r.Add format h).formatKeys → goToLower k = k)
    ∧ (∀ (r : Renderer) (s : String), r.lookup s = r.lookup (goToLower s))
    ∧ (∀ (r : Renderer) (s t : String), goToLower s = goToLower t →
        r.lookup s = r.lookup t) := by
  refine ⟨?_, ?_, ?_, ?_⟩
  · intro pairs k hk
    exact New_keys_pred (fun k => goToLower k = k)
      (fun f _ => goToLower_idem f) pairs k hk
  · intro r format h hr k hk
    exact add_keys_pred (fun k => goToLower k = k)
      (fun f _ => goToLower_idem f) r format h hr k hk
  · intro r s
    unfold Renderer.lookup
    rw [goToLower_idem]
  · intro r s t hst
    unfold Renderer.lookup
    rw [hst]

/-- Witness for C6: the key "YAML" inserts as lowercase "yaml", and the
casing variant "YML" resolves exactly as "yml". -/
theorem renderer_keys_lowercase_witness :
    goToLower "yaml" = "yaml"
    ∧ (New [("yaml", yamlStub)]).lookup "YML" =
        (New [("yaml", yamlStub)]).lookup "yml" :=
  ⟨renderer_keys_lowercase_case_insensitive.2.1 ⟨[]⟩ "YAML" yamlStub
      (by intro k hk; simp [Renderer.formatKeys] at hk) "yaml" (by decide),
   renderer_keys_lowercase_case_insensitive.2.2.2 (New [("yaml", yamlStub)])
      "YML" "yml" (by decide)⟩

/-- C10: the registry never maps the empty string: the no-empty-key
invariant is preserved by Add (in particular by Add with format ""), holds
for every New and NewWith result, while Add with format "" still registers
every non-empty name declared in the handler's Formats() (lower-cased) —
empty declared names are skipped. -/
theorem renderer_no_empty_key :
    (∀ (r : Renderer) (format : String) (h : Handler),
        (∀ k, k ∈ r.formatKeys → k ≠ "") →
        ∀ k, k ∈ (r.Add format h).formatKeys → k ≠ "")
    ∧ (∀ (pairs : List (String × Handler)) (k : String),
        k ∈ (New pairs).formatKeys → k ≠ "")
    ∧ (∀ (r : Renderer) (formats : List String) (k : String),
        k ∈ (r.NewWith formats).formatKeys → k ≠ "")
    ∧ (∀ (r : Renderer) (h : Handler) (fs : List String) (f : String),
        h.formats? = some fs → f ∈ fs → f ≠ "" →
        (r.Add "" h).lookup f = some h) := by
  refine ⟨?_, ?_, ?_, ?_⟩
  · intro r format h hr k hk
    exact add_keys_pred (fun k => k ≠ "")
      (fun f hf => goToLower_ne_empty f hf) r format h hr k hk
  · intro pairs k hk
    exact New_keys_pred (fun k => k ≠ "")
      (fun f hf => goToLower_ne_empty f hf) pairs k hk
  · intro r formats k hk
    exact NewWith_keys_pred (fun k => k ≠ "")
      (fun f hf => goToLower_ne_empty f hf) r formats k hk
  · intro r h fs f hfs hmem hf
    exact Add_lookup_alias r h fs f hfs hmem hf

/-- Witness for C10: Add with format "" on an empty registry still registers
the handler's declared "yaml" alias, and New never produces an empty key. -/
theorem renderer_no_empty_key_witness :
    ((⟨[]⟩ : Renderer).Add "" yamlStub).lookup "yaml" = some yamlStub
    ∧ "yaml" ≠ "" :=
  ⟨renderer_no_empty_key.2.2.2 ⟨[]⟩ yamlStub ["yaml", "yml"] "yaml" rfl
      (by decide) (by decide),
   renderer_no_empty_key.2.1 [("yaml", yamlStub)] "yaml" (by decide)⟩
